import Mathlib

/-!
Verification of the meilisearch index-scheduler snapshot exporter and the
search-preparation helpers, as a shallow embedding of the Rust sources
(`index-scheduler/src/insta_snapshot.rs`, `meilisearch/src/search.rs`).

Databases (heed tables) are embedded as association lists given in the
iteration order of the underlying store; compressed roaring bitmaps are
embedded as finite sets of naturals (roaring iteration is ascending, which
the embedding realises through `Finset.sort`); machine integers are `Nat`
with explicit bounds where overflow matters.
-/

namespace Meili

/-- Task status, from meilisearch-types (`Status`): five states. -/
inductive Status where
  | enqueued
  | processing
  | succeeded
  | failed
  | canceled
deriving DecidableEq, Repr

/-- Display form of a status, lowercase, as in meilisearch-types. -/
def Status.display : Status → String
  | .enqueued => "enqueued"
  | .processing => "processing"
  | .succeeded => "succeeded"
  | .failed => "failed"
  | .canceled => "canceled"

/-- A status is terminal when the task is finished for good. -/
def Status.isTerminal : Status → Bool
  | .succeeded => true
  | .failed => true
  | .canceled => true
  | _ => false

/-- Operation kind of a task (meilisearch-types `Kind`; the spec lists
document-addition, settings-update, document-deletion, deletion-by-filter,
clear-all, task-cancellation, task-deletion, dump-creation, index-swap). -/
inductive Kind where
  | documentAdditionOrUpdate
  | settingsUpdate
  | documentDeletion
  | documentDeletionByFilter
  | clearAll
  | taskCancelation
  | taskDeletion
  | dumpCreation
  | indexSwap
deriving DecidableEq, Repr

/-- Rust Debug rendering of a kind (variant name). -/
def Kind.debugFmt : Kind → String
  | .documentAdditionOrUpdate => "DocumentAdditionOrUpdate"
  | .settingsUpdate => "SettingsUpdate"
  | .documentDeletion => "DocumentDeletion"
  | .documentDeletionByFilter => "DocumentDeletionByFilter"
  | .clearAll => "ClearAll"
  | .taskCancelation => "TaskCancelation"
  | .taskDeletion => "TaskDeletion"
  | .dumpCreation => "DumpCreation"
  | .indexSwap => "IndexSwap"

/-- serde_json string of a kind (camelCase, quoted), used by snapshot_kind. -/
def Kind.jsonFmt : Kind → String
  | .documentAdditionOrUpdate => "\"documentAdditionOrUpdate\""
  | .settingsUpdate => "\"settingsUpdate\""
  | .documentDeletion => "\"documentDeletion\""
  | .documentDeletionByFilter => "\"documentDeletionByFilter\""
  | .clearAll => "\"clearAll\""
  | .taskCancelation => "\"taskCancelation\""
  | .taskDeletion => "\"taskDeletion\""
  | .dumpCreation => "\"dumpCreation\""
  | .indexSwap => "\"indexSwap\""

/-- Rust `Debug` of an `Option` value. -/
def optionDebug (f : α → String) : Option α → String
  | none => "None"
  | some a => "Some(" ++ f a ++ ")"

/-- Rust `Debug` of a string (quoted; inner escaping not needed by any claim). -/
def strDebug (s : String) : String := "\"" ++ s ++ "\""

/-- Task `Details` payload, variants and fields as matched by
`snapshot_details` in insta_snapshot.rs. Settings and filters are carried as
their textual payloads. -/
inductive Details where
  | documentAdditionOrUpdate (received_documents : Nat) (indexed_documents : Option Nat)
  | settingsUpdate (settings : String)
  | indexInfo (primary_key : Option String)
  | documentDeletion (provided_ids : Nat) (deleted_documents : Option Nat)
  | documentDeletionByFilter (original_filter : String) (deleted_documents : Option Nat)
  | clearAll (deleted_documents : Option Nat)
  | taskCancelation (matched_tasks : Nat) (canceled_tasks : Option Nat) (original_filter : Option String)
  | taskDeletion (matched_tasks : Nat) (deleted_tasks : Option Nat) (original_filter : Option String)
  | dump (dump_uid : Option String)
  | indexSwap (swaps : List (String × String))
deriving DecidableEq, Repr

/-- Debug rendering of the swap list (Vec of index pairs). -/
def swapsDebug (swaps : List (String × String)) : String :=
  "[" ++ String.intercalate ", "
    (swaps.map (fun p => "(" ++ strDebug p.1 ++ ", " ++ strDebug p.2 ++ ")")) ++ "]"

/-- Task record, fields as destructured by `snapshot_task`
(`meilisearch_types::tasks::Task`). Timestamps are carried but not printed.
`index_uid` carries the task's target index name (`Task::index_uid()`, which
in the Rust type lives inside the kind's content; the bare `Kind`
discriminant here does not carry it, so it is denormalised into a field,
`none` for kinds that target no index). -/
structure Task where
  uid : Nat
  enqueued_at : Int
  started_at : Option Int
  finished_at : Option Int
  error : Option String
  canceled_by : Option Nat
  details : Option Details
  status : Status
  kind : Kind
  index_uid : Option String
deriving DecidableEq, Repr

/-- snapshot_details (insta_snapshot.rs lines 172-217): per-variant record text. -/
def snapshot_details : Details → String
  | .documentAdditionOrUpdate received_documents indexed_documents =>
      "\x7b received_documents: " ++ toString received_documents ++
      ", indexed_documents: " ++ optionDebug toString indexed_documents ++ " \x7d"
  | .settingsUpdate settings =>
      "\x7b settings: " ++ settings ++ " \x7d"
  | .indexInfo primary_key =>
      "\x7b primary_key: " ++ optionDebug strDebug primary_key ++ " \x7d"
  | .documentDeletion received_document_ids deleted_documents =>
      "\x7b received_document_ids: " ++ toString received_document_ids ++
      ", deleted_documents: " ++ optionDebug toString deleted_documents ++ " \x7d"
  | .documentDeletionByFilter original_filter deleted_documents =>
      "\x7b original_filter: " ++ original_filter ++
      ", deleted_documents: " ++ optionDebug toString deleted_documents ++ " \x7d"
  | .clearAll deleted_documents =>
      "\x7b deleted_documents: " ++ optionDebug toString deleted_documents ++ " \x7d"
  | .taskCancelation matched_tasks canceled_tasks original_filter =>
      "\x7b matched_tasks: " ++ toString matched_tasks ++
      ", canceled_tasks: " ++ optionDebug toString canceled_tasks ++
      ", original_filter: " ++ optionDebug strDebug original_filter ++ " \x7d"
  | .taskDeletion matched_tasks deleted_tasks original_filter =>
      "\x7b matched_tasks: " ++ toString matched_tasks ++
      ", deleted_tasks: " ++ optionDebug toString deleted_tasks ++
      ", original_filter: " ++ optionDebug strDebug original_filter ++ " \x7d"
  | .dump dump_uid =>
      "\x7b dump_uid: " ++ optionDebug strDebug dump_uid ++ " \x7d"
  | .indexSwap swaps =>
      "\x7b swaps: " ++ swapsDebug swaps ++ " \x7d"

/-- snapshot_task (insta_snapshot.rs lines 141-170): push-str accumulation of
the record fields, optional fields printed only when present. -/
def snapshot_task (task : Task) : String :=
  let snap := ""
  let snap := snap.push '\x7b'
  let snap := snap ++ "uid: " ++ toString task.uid ++ ", "
  let snap := snap ++ "status: " ++ task.status.display ++ ", "
  let snap := snap ++ (match task.canceled_by with
    | some canceled_by => "canceled_by: " ++ toString canceled_by ++ ", "
    | none => "")
  let snap := snap ++ (match task.error with
    | some error => "error: " ++ strDebug error ++ ", "
    | none => "")
  let snap := snap ++ (match task.details with
    | some details => "details: " ++ snapshot_details details ++ ", "
    | none => "")
  let snap := snap ++ "kind: " ++ task.kind.debugFmt
  let snap := snap.push '\x7d'
  snap

/-- snapshot_bitmap (insta_snapshot.rs lines 111-119): open bracket, each set
member in roaring (ascending) iteration order followed by a comma, close
bracket. The roaring bitmap is embedded as a `Finset Nat`; its ascending
iteration order is `Finset.sort`. -/
def snapshot_bitmap (r : Finset Nat) : String :=
  let snap := ""
  let snap := snap.push '['
  let snap := (r.sort (· ≤ ·)).foldl (fun acc x => acc ++ toString x ++ ",") snap
  let snap := snap.push ']'
  snap

/-- Strict lexicographic order on digit/byte strings, as a boolean function:
a list is smaller when it is a proper prefix of the other or differs first at
a smaller element. -/
def lexLt : List Nat → List Nat → Bool
  | [], [] => false
  | [], _ :: _ => true
  | _ :: _, [] => false
  | a :: as, b :: bs => a < b || (a == b && lexLt as bs)

/-- Big-endian bytes of a u32 key, as stored by the heed `BEU32` codec. -/
def beBytes32 (n : Nat) : List Nat :=
  [n / 16777216 % 256, n / 65536 % 256, n / 256 % 256, n % 256]

/-- Big-endian base-16 digits of a natural, `k` digits (most significant
first). -/
def hexDigitsBE : Nat → Nat → List Nat
  | 0, _ => []
  | k + 1, n => hexDigitsBE k (n / 16) ++ [n % 16]

/-- ASCII code of the lowercase hex digit for a value below 16
(0-9 then a-f), as the uuid crate prints. -/
def hexCharCode (d : Nat) : Nat := if d < 10 then 48 + d else 87 + d

/-- Hyphen insertion of the canonical uuid layout (8-4-4-4-12 groups,
45 is the hyphen code). -/
def insHyphens (ds : List Nat) : List Nat :=
  ds.take 8 ++ [45] ++ (ds.drop 8).take 4 ++ [45] ++ (ds.drop 12).take 4 ++
    [45] ++ (ds.drop 16).take 4 ++ [45] ++ ds.drop 20

/-- Character codes of the canonical hyphenated lowercase rendering of a
128-bit uuid (8-4-4-4-12 hex digits). -/
def uuidCharCodes (u : Nat) : List Nat :=
  insHyphens ((hexDigitsBE 32 u).map hexCharCode)

/-- Display string of a uuid value. -/
def uuidDisplay (u : Nat) : String :=
  String.mk ((uuidCharCodes u).map Char.ofNat)

/-- snapshot_file_store (insta_snapshot.rs lines 101-109): the uuids are
collected into a BTreeSet (ordered by the uuid value) and printed one per
line. The set of registered blob ids is embedded as a `Finset Nat` of
128-bit values. -/
def snapshot_file_store (file_store : Finset Nat) : String :=
  (file_store.sort (· ≤ ·)).foldl (fun snap uuid => snap ++ uuidDisplay uuid ++ "\n") ""

/-- snapshot_all_tasks (insta_snapshot.rs lines 121-129): the `all_tasks`
table is iterated in store order (big-endian u32 key order), one line per
record. The table is embedded as an association list in iteration order. -/
def snapshot_all_tasks (db : List (Nat × Task)) : String :=
  db.foldl (fun snap p => snap ++ toString p.1 ++ " " ++ snapshot_task p.2 ++ "\n") ""

/-- snapshot_date_db (insta_snapshot.rs lines 131-139). -/
def snapshot_date_db (db : List (Int × Finset Nat)) : String :=
  db.foldl (fun snap p => snap ++ "[timestamp] " ++ snapshot_bitmap p.2 ++ "\n") ""

/-- snapshot_status (insta_snapshot.rs lines 219-230). -/
def snapshot_status (db : List (Status × Finset Nat)) : String :=
  db.foldl (fun snap p => snap ++ p.1.display ++ " " ++ snapshot_bitmap p.2 ++ "\n") ""

/-- snapshot_kind (insta_snapshot.rs lines 231-240): keys serialised with
serde_json. -/
def snapshot_kind (db : List (Kind × Finset Nat)) : String :=
  db.foldl (fun snap p => snap ++ p.1.jsonFmt ++ " " ++ snapshot_bitmap p.2 ++ "\n") ""

/-- snapshot_index_tasks (insta_snapshot.rs lines 242-250). -/
def snapshot_index_tasks (db : List (String × Finset Nat)) : String :=
  db.foldl (fun snap p => snap ++ p.1 ++ " " ++ snapshot_bitmap p.2 ++ "\n") ""

/-- snapshot_canceled_by (insta_snapshot.rs lines 251-259). -/
def snapshot_canceled_by (db : List (Nat × Finset Nat)) : String :=
  db.foldl (fun snap p => snap ++ toString p.1 ++ " " ++ snapshot_bitmap p.2 ++ "\n") ""

/-- Per-index statistics returned by the index mapper. -/
structure IndexStats where
  number_of_documents : Nat
  field_distribution : List (String × Nat)
deriving DecidableEq, Repr

/-- Debug rendering of a field distribution map. -/
def fieldDistributionDebug (fd : List (String × Nat)) : String :=
  "\x7b" ++ String.intercalate ", "
    (fd.map (fun p => strDebug p.1 ++ ": " ++ toString p.2)) ++ "\x7d"

/-- snapshot_index_mapper (insta_snapshot.rs lines 260-273): registered index
names with their stats, in the mapper's (name-ordered) iteration order. -/
def snapshot_index_mapper (mapper : List (String × IndexStats)) : String :=
  mapper.foldl (fun s p =>
    s ++ p.1 ++ ": \x7b number_of_documents: " ++ toString p.2.number_of_documents ++
      ", field_distribution: " ++ fieldDistributionDebug p.2.field_distribution ++ " \x7d\n") ""

/-- The IndexScheduler state read by the exporter, with every field of the
Rust struct destructured by `snapshot_index_scheduler`; fields the exporter
ignores (matched `_` in the source) are carried so that determinism over the
read content is a statement, not a typing accident. Databases appear in
their store iteration order. -/
structure IndexScheduler where
  autobatching_enabled : Bool
  cleanup_enabled : Bool
  must_stop_processing : Bool
  processing_tasks : Finset Nat
  file_store : Finset Nat
  all_tasks : List (Nat × Task)
  status : List (Status × Finset Nat)
  kind : List (Kind × Finset Nat)
  index_tasks : List (String × Finset Nat)
  canceled_by : List (Nat × Finset Nat)
  enqueued_at : List (Int × Finset Nat)
  started_at : List (Int × Finset Nat)
  finished_at : List (Int × Finset Nat)
  index_mapper : List (String × IndexStats)
  features : Bool
  max_number_of_tasks : Nat
  max_number_of_batched_tasks : Nat
  wake_up : Bool
  dumps_path : String
  snapshots_path : String
  auth_path : String
  version_file_path : String
  webhook_url : Option String
  webhook_authorization_header : Option String
  planned_failures : List (Nat × String)
  run_loop_iteration : Nat

/-- Modelled from the spec: the body of `IndexScheduler::assert_internally_consistent`
is not part of the visible sources (only its call site in
`snapshot_index_scheduler` is), so the structural self-consistency check is
taken from the section-3 invariants, one family per carried table:
status — every task of the record table belongs to exactly the status bucket
named by its `status` field, such a bucket exists, and every uid found in a
status bucket is a record of that status (so the union of the buckets is
exactly the record table's uid set); index name — a uid appears in an
index-name bucket iff the task targets that index, the bucket existing
whenever some task targets the name; cancelling task — a uid appears in a
cancelling-task's bucket iff that task canceled it, the bucket existing
whenever some task was canceled by it; processing set — the in-memory
processing set is a subset of the persisted Processing-status bucket. -/
def ConsistencyInv (s : IndexScheduler) : Prop :=
  ((∀ p ∈ s.all_tasks, ∀ q ∈ s.status, (p.1 ∈ q.2 ↔ q.1 = p.2.status)) ∧
   (∀ p ∈ s.all_tasks, ∃ q ∈ s.status, q.1 = p.2.status) ∧
   (∀ q ∈ s.status, ∀ u ∈ q.2, ∃ p ∈ s.all_tasks, p.1 = u ∧ p.2.status = q.1)) ∧
  ((∀ p ∈ s.all_tasks, ∀ q ∈ s.index_tasks, (p.1 ∈ q.2 ↔ some q.1 = p.2.index_uid)) ∧
   (∀ p ∈ s.all_tasks, p.2.index_uid ≠ none →
     ∃ q ∈ s.index_tasks, some q.1 = p.2.index_uid) ∧
   (∀ q ∈ s.index_tasks, ∀ u ∈ q.2,
     ∃ p ∈ s.all_tasks, p.1 = u ∧ p.2.index_uid = some q.1)) ∧
  ((∀ p ∈ s.all_tasks, ∀ q ∈ s.canceled_by, (p.1 ∈ q.2 ↔ some q.1 = p.2.canceled_by)) ∧
   (∀ p ∈ s.all_tasks, p.2.canceled_by ≠ none →
     ∃ q ∈ s.canceled_by, some q.1 = p.2.canceled_by) ∧
   (∀ q ∈ s.canceled_by, ∀ u ∈ q.2,
     ∃ p ∈ s.all_tasks, p.1 = u ∧ p.2.canceled_by = some q.1)) ∧
  (∀ u ∈ s.processing_tasks, ∃ q ∈ s.status, q.1 = Status.processing ∧ u ∈ q.2)

instance (s : IndexScheduler) : Decidable (ConsistencyInv s) := by
  unfold ConsistencyInv; infer_instance

/-- Modelled from the spec: the boolean outcome of the §3 structural
self-consistency verification run by the exporter before reading any table. -/
def assert_internally_consistent (s : IndexScheduler) : Bool :=
  decide (ConsistencyInv s)

/-- The 70-dash section separator of the snapshot format. -/
def snapSep : String :=
  "----------------------------------------------------------------------\n"

/-- snapshot_index_scheduler (insta_snapshot.rs lines 13-99): runs the
consistency assertion first; a failed assertion is a panic, which produces no
snapshot output (`none` here); otherwise the sections are emitted in source
order under the single read transaction the association lists stand for. -/
def snapshot_index_scheduler (scheduler : IndexScheduler) : Option String :=
  if assert_internally_consistent scheduler then
    let snap := ""
    let snap := snap ++ "### Autobatching Enabled = " ++
      toString scheduler.autobatching_enabled ++ "\n"
    let snap := snap ++ "### Processing Tasks:\n"
    let snap := snap ++ snapshot_bitmap scheduler.processing_tasks
    let snap := snap ++ "\n" ++ snapSep
    let snap := snap ++ "### All Tasks:\n"
    let snap := snap ++ snapshot_all_tasks scheduler.all_tasks
    let snap := snap ++ snapSep
    let snap := snap ++ "### Status:\n"
    let snap := snap ++ snapshot_status scheduler.status
    let snap := snap ++ snapSep
    let snap := snap ++ "### Kind:\n"
    let snap := snap ++ snapshot_kind scheduler.kind
    let snap := snap ++ snapSep
    let snap := snap ++ "### Index Tasks:\n"
    let snap := snap ++ snapshot_index_tasks scheduler.index_tasks
    let snap := snap ++ snapSep
    let snap := snap ++ "### Index Mapper:\n"
    let snap := snap ++ snapshot_index_mapper scheduler.index_mapper
    let snap := snap ++ "\n" ++ snapSep
    let snap := snap ++ "### Canceled By:\n"
    let snap := snap ++ snapshot_canceled_by scheduler.canceled_by
    let snap := snap ++ "\n" ++ snapSep
    let snap := snap ++ "### Enqueued At:\n"
    let snap := snap ++ snapshot_date_db scheduler.enqueued_at
    let snap := snap ++ snapSep
    let snap := snap ++ "### Started At:\n"
    let snap := snap ++ snapshot_date_db scheduler.started_at
    let snap := snap ++ snapSep
    let snap := snap ++ "### Finished At:\n"
    let snap := snap ++ snapshot_date_db scheduler.finished_at
    let snap := snap ++ snapSep
    let snap := snap ++ "### File Store:\n"
    let snap := snap ++ snapshot_file_store scheduler.file_store
    let snap := snap ++ "\n" ++ snapSep
    some snap
  else
    none

/-!
Task record store and its status secondary index, modelled from the spec:
the store operations `enqueue`, `transition` and `cancel` of section 4.1 are
not part of the visible sources (only the snapshot exporter is), so they are
modelled from the spec's words: one atomic transaction per operation, the
status index removed/re-inserted in the same transaction, cancellation
best-effort on non-terminal tasks only.
-/

/-- State of the task record store with its secondary indices, at a
transaction boundary. -/
structure SchedState where
  tasks : Nat → Option Task
  nextUid : Nat
  statusIdx : Status → Finset Nat
  kindIdx : Kind → Finset Nat
  indexIdx : String → Finset Nat
  canceledByIdx : Nat → Finset Nat

/-- The freshly enqueued record: `Enqueued` status, no timestamps yet. -/
def enqueuedTask (k : Kind) (indexName : Option String) (details : Option Details)
    (ts : Int) (uid : Nat) : Task :=
  { uid := uid, enqueued_at := ts, started_at := none, finished_at := none,
    error := none, canceled_by := none, details := details,
    status := .enqueued, kind := k, index_uid := indexName }

/-- Modelled from the spec (section 4.1 `enqueue`): allocates the next uid,
inserts a fresh `Enqueued` record and updates the secondary indices in the
same transaction. -/
def SchedState.enqueue (s : SchedState) (k : Kind) (indexName : Option String)
    (details : Option Details) (ts : Int) : SchedState :=
  let uid := s.nextUid
  let t : Task := enqueuedTask k indexName details ts uid
  { tasks := fun u => if u = uid then some t else s.tasks u
    nextUid := uid + 1
    statusIdx := fun st => if st = .enqueued then insert uid (s.statusIdx st) else s.statusIdx st
    kindIdx := fun kk => if kk = k then insert uid (s.kindIdx kk) else s.kindIdx kk
    indexIdx := fun n => if indexName = some n then insert uid (s.indexIdx n) else s.indexIdx n
    canceledByIdx := s.canceledByIdx }

/-- Modelled from the spec (section 4.1 `transition`): updates the record and
removes/re-inserts the uid in the status secondary index in the same
transaction; an unknown uid fails with TaskNotFound, leaving the state
untouched. -/
def SchedState.transition (s : SchedState) (uid : Nat) (newStatus : Status)
    (ts : Int) (details_patch : Option Details) (error : Option String) : SchedState :=
  match s.tasks uid with
  | none => s
  | some t =>
    let t' : Task :=
      { t with
        status := newStatus
        started_at := if newStatus = .processing then some ts else t.started_at
        finished_at := if newStatus.isTerminal then some ts else t.finished_at
        details := details_patch <|> t.details
        error := error <|> t.error }
    { s with
      tasks := fun u => if u = uid then some t' else s.tasks u
      statusIdx := fun st =>
        if st = newStatus then insert uid (s.statusIdx st)
        else if st = t.status then (s.statusIdx st).erase uid
        else s.statusIdx st }

/-- Modelled from the spec (section 4.1 `cancel`): one uid's step — a task
still non-terminal transitions to `Canceled` with `canceled_by` recorded and
joins the cancelling task's bucket; a terminal or unknown task is left
untouched (no-op, not an error). -/
def SchedState.cancelOne (s : SchedState) (cuid : Nat) (ts : Int) (uid : Nat) : SchedState :=
  match s.tasks uid with
  | none => s
  | some t =>
    if t.status.isTerminal then s
    else
      let t' : Task :=
        { t with status := .canceled, canceled_by := some cuid, finished_at := some ts }
      { s with
        tasks := fun u => if u = uid then some t' else s.tasks u
        statusIdx := fun st =>
          if st = Status.canceled then insert uid (s.statusIdx st)
          else if st = t.status then (s.statusIdx st).erase uid
          else s.statusIdx st
        canceledByIdx := fun c =>
          if c = cuid then insert uid (s.canceledByIdx c) else s.canceledByIdx c }

/-- Modelled from the spec (section 4.1 `cancel`): best-effort cancellation of
every uid of the request. -/
def SchedState.cancel (s : SchedState) (uids : List Nat) (cuid : Nat) (ts : Int) : SchedState :=
  uids.foldl (fun s u => s.cancelOne cuid ts u) s

/-- The empty store: no task, no bucket. -/
def SchedState.init : SchedState :=
  { tasks := fun _ => none, nextUid := 0, statusIdx := fun _ => ∅,
    kindIdx := fun _ => ∅, indexIdx := fun _ => ∅, canceledByIdx := fun _ => ∅ }

/-- One store operation (a transaction). -/
inductive StoreOp where
  | enqueue (k : Kind) (indexName : Option String) (details : Option Details) (ts : Int)
  | transition (uid : Nat) (newStatus : Status) (ts : Int)
      (details_patch : Option Details) (error : Option String)
  | cancel (uids : List Nat) (cuid : Nat) (ts : Int)

/-- Apply one operation. -/
def SchedState.step (s : SchedState) : StoreOp → SchedState
  | .enqueue k n d ts => s.enqueue k n d ts
  | .transition uid st ts d e => s.transition uid st ts d e
  | .cancel uids cuid ts => s.cancel uids cuid ts

/-- Apply a sequence of operations from the empty store. -/
def SchedState.applyOps (ops : List StoreOp) : SchedState :=
  ops.foldl SchedState.step SchedState.init

/-- Status-index/record agreement: a uid sits in a status bucket exactly when
the record table holds a task of that uid whose `status` field names that
bucket — so every recorded uid is in exactly one bucket (its record's), and
the union of the buckets is exactly the record table's uid set. -/
def StatusAgrees (s : SchedState) : Prop :=
  ∀ u st, u ∈ s.statusIdx st ↔ ∃ t, s.tasks u = some t ∧ t.status = st

/-- Auxiliary invariant: uids at or above the allocation cursor are unused. -/
def FreshAbove (s : SchedState) : Prop :=
  ∀ u, s.nextUid ≤ u → s.tasks u = none

/-- A uid is settled when its record, if any, is terminal — cancellation can
no longer touch it. -/
def SchedState.settled (s : SchedState) (u : Nat) : Prop :=
  ∀ t, s.tasks u = some t → t.status.isTerminal = true


/-!
Search-side helpers from meilisearch/src/search.rs: embedder resolution
(`SearchKind::embedder`), the pagination window of `prepare_search`, and
`add_search_rules`.
-/

/-- A configured embedder; only its dimension count matters here. -/
structure Embedder where
  dimensions : Nat
deriving DecidableEq, Repr

/-- The index's embedding configurations as built by
`index_scheduler.embedders(...)`: named embedders plus the default name
returned by `get_default_embedder_name`. -/
structure EmbeddingConfigs where
  configs : List (String × Embedder)
  default_name : String
deriving DecidableEq, Repr

/-- Lookup of a named embedder (`embedders.get(name)`). -/
def EmbeddingConfigs.get (e : EmbeddingConfigs) (name : String) : Option Embedder :=
  (e.configs.find? (fun p => p.1 == name)).map (fun p => p.2)

/-- The user errors `SearchKind::embedder` can produce
(`milli::UserError::InvalidEmbedder` and
`milli::UserError::InvalidVectorDimensions`). -/
inductive EmbedderError where
  | invalidEmbedder (name : String)
  | invalidVectorDimensions (expected found : Nat)
deriving DecidableEq, Repr

/-- SearchKind::embedder (search.rs lines 234-265): resolves the requested or
default embedder name, errors with InvalidEmbedder when the name is not
configured, errors with InvalidVectorDimensions when a supplied vector length
differs from the embedder's dimensions, and otherwise returns the name and
embedder. -/
def SearchKind.embedder (embedders : EmbeddingConfigs)
    (embedder_name : Option String) (vector_len : Option Nat) :
    Except EmbedderError (String × Embedder) :=
  let embedder_name := embedder_name.getD embedders.default_name
  match embedders.get embedder_name with
  | none => .error (.invalidEmbedder embedder_name)
  | some embedder =>
    match vector_len with
    | some vector_len =>
        if vector_len ≠ embedder.dimensions then
          .error (.invalidVectorDimensions embedder.dimensions vector_len)
        else .ok (embedder_name, embedder)
    | none => .ok (embedder_name, embedder)

/-- DEFAULT_SEARCH_LIMIT (search.rs line 36). -/
def DEFAULT_SEARCH_LIMIT : Nat := 20

/-- SearchQuery::is_finite_pagination (search.rs lines 301-303). -/
def is_finite_pagination (page hits_per_page : Option Nat) : Bool :=
  (page <|> hits_per_page).isSome

/-- The pre-clamp window requested by the query (search.rs lines 715-723):
under finite pagination the window derives from `page`/`hits_per_page`
(page 0 yields the empty window; the `limit * p` usize product wraps at
2^64), otherwise it is the query's own `offset`/`limit`. -/
def requested_window (offset limit : Nat) (page hits_per_page : Option Nat) : Nat × Nat :=
  if is_finite_pagination page hits_per_page then
    let limit := hits_per_page.getD DEFAULT_SEARCH_LIMIT
    let page := page.getD 1
    match page with
    | 0 => (0, 0)
    | p + 1 => (limit * p % 2 ^ 64, limit)
  else
    (offset, limit)

/-- The effective window set by prepare_search (search.rs lines 714-731):
the requested window clamped to the pagination hard limit, offset first, then
the limit against what room is left (`saturating_sub`). -/
def prepare_search_window (offset limit : Nat) (page hits_per_page : Option Nat)
    (max_total_hits : Nat) : Nat × Nat :=
  let ol := requested_window offset limit page hits_per_page
  let offset := min ol.1 max_total_hits
  let limit := min ol.2 (max_total_hits - offset)
  (offset, limit)

/-- serde_json values, as far as filter expressions carry them. -/
inductive JsonValue where
  | null
  | bool (b : Bool)
  | num (n : Int)
  | str (s : String)
  | arr (xs : List JsonValue)
  | obj (fields : List (String × JsonValue))

/-- Search rules attached to an API key for one index
(meilisearch-auth `IndexSearchRules`). -/
structure IndexSearchRules where
  filter : Option JsonValue

/-- add_search_rules (search.rs lines 639-656): merges the key's rules filter
into the query filter; with both present, each side is wrapped into a
singleton array unless it already is an array, and the two are concatenated. -/
def add_search_rules (filter : Option JsonValue) (rules : IndexSearchRules) :
    Option JsonValue :=
  match filter, rules.filter with
  | none, rules_filter => rules_filter
  | filter, none => filter
  | some filter, some rules_filter =>
    let filter := match filter with
      | .arr filter => filter
      | filter => [filter]
    let rules_filter := match rules_filter with
      | .arr rules_filter => rules_filter
      | rules_filter => [rules_filter]
    some (.arr (filter ++ rules_filter))

/-- Wrapping of a json value into an array unless it already is one, the
way both operands of the filter concatenation are treated. -/
def wrapArray : JsonValue → List JsonValue
  | .arr xs => xs
  | v => [v]

/-- A small concrete scheduler state: one succeeded task, consistent store. -/
def sampleTask : Task :=
  { uid := 0, enqueued_at := 0, started_at := some 1, finished_at := some 2,
    error := none, canceled_by := none,
    details := some (.documentAdditionOrUpdate 12 (some 12)),
    status := .succeeded, kind := .documentAdditionOrUpdate,
    index_uid := some "doggos" }

/-- A concrete consistent scheduler state used to instantiate the snapshot
claims. -/
def sampleScheduler : IndexScheduler :=
  { autobatching_enabled := true
    cleanup_enabled := false
    must_stop_processing := false
    processing_tasks := ∅
    file_store := {0, 1}
    all_tasks := [(0, sampleTask)]
    status := [(.succeeded, {0})]
    kind := [(.documentAdditionOrUpdate, {0})]
    index_tasks := [("doggos", {0})]
    canceled_by := []
    enqueued_at := [(0, {0})]
    started_at := [(1, {0})]
    finished_at := [(2, {0})]
    index_mapper := [("doggos", ⟨12, [("doggo", 12)]⟩)]
    features := false
    max_number_of_tasks := 1000000
    max_number_of_batched_tasks := 1000000
    wake_up := false
    dumps_path := "dumps"
    snapshots_path := "snapshots"
    auth_path := "auth"
    version_file_path := "VERSION"
    webhook_url := none
    webhook_authorization_header := none
    planned_failures := []
    run_loop_iteration := 0 }

/-- The same store content as `sampleScheduler`, every field the exporter
ignores changed. -/
def sampleSchedulerAlt : IndexScheduler :=
  { sampleScheduler with
    cleanup_enabled := true
    must_stop_processing := true
    features := true
    max_number_of_tasks := 5
    max_number_of_batched_tasks := 7
    wake_up := true
    dumps_path := "elsewhere"
    snapshots_path := "elsewhere2"
    auth_path := "elsewhere3"
    version_file_path := "elsewhere4"
    webhook_url := some "http://localhost"
    webhook_authorization_header := some "Bearer x"
    planned_failures := [(3, "after-opening-env")]
    run_loop_iteration := 42 }

/-- A small concrete store holding one succeeded (hence terminal) task. -/
def sampleStore : SchedState :=
  { tasks := fun u => if u = 0 then some sampleTask else none
    nextUid := 1
    statusIdx := fun st => if st = Status.succeeded then {0} else ∅
    kindIdx := fun k => if k = Kind.documentAdditionOrUpdate then {0} else ∅
    indexIdx := fun n => if n = "doggos" then {0} else ∅
    canceledByIdx := fun _ => ∅ }

/-!
## Helper lemmas
-/

theorem strFoldl_append (l : List String) (x y : String) :
    l.foldl (fun r s => r ++ s) (x ++ y) = x ++ l.foldl (fun r s => r ++ s) y := by
  induction l generalizing y with
  | nil => rfl
  | cons a l ih =>
    simp only [List.foldl_cons]
    rw [String.append_assoc, ih]

theorem strJoin_cons (a : String) (l : List String) :
    String.join (a :: l) = a ++ String.join l := by
  show l.foldl (fun r s => r ++ s) ("" ++ a) = a ++ String.join l
  rw [String.empty_append, ← String.append_empty a, strFoldl_append,
    String.append_empty]
  rfl

theorem strFoldl_eq_join (f : α → String) (l : List α) (init : String) :
    l.foldl (fun acc x => acc ++ f x) init = init ++ String.join (l.map f) := by
  induction l generalizing init with
  | nil => simp [String.join, String.append_empty]
  | cons a l ih =>
    simp only [List.foldl_cons, List.map_cons]
    rw [ih, strJoin_cons, String.append_assoc]

theorem strFoldl_map_eq_join (F : α → String) (l : List α)
    (fn : String → α → String) (hfn : ∀ acc x, fn acc x = acc ++ F x) :
    l.foldl fn "" = String.join (l.map F) := by
  have hfn2 : fn = fun acc x => acc ++ F x := by funext acc x; exact hfn acc x
  rw [hfn2, strFoldl_eq_join, String.empty_append]

theorem lexLt_nil_nil : lexLt [] [] = false := rfl

theorem lexLt_cons (a b : Nat) (as bs : List Nat) :
    lexLt (a :: as) (b :: bs) = (decide (a < b) || (a == b && lexLt as bs)) := rfl

theorem lexLt_append_iff : ∀ (xs ys as bs : List Nat), xs.length = ys.length →
    lexLt (xs ++ as) (ys ++ bs) = (lexLt xs ys || (xs == ys && lexLt as bs))
  | [], [], as, bs, _ => by simp [lexLt]
  | [], _ :: _, _, _, h => by simp at h
  | _ :: _, [], _, _, h => by simp at h
  | x :: xs, y :: ys, as, bs, h => by
    have ih := lexLt_append_iff xs ys as bs (by simpa using h)
    simp only [List.cons_append, lexLt_cons, ih, List.cons_beq_cons]
    cases hxy : (x == y)
    · simp
    · simp [Bool.and_or_distrib_left, Bool.or_assoc, Bool.and_assoc]

theorem lexLt_cons_same (c : Nat) (as bs : List Nat) :
    lexLt (c :: as) (c :: bs) = lexLt as bs := by
  simp [lexLt_cons]

theorem beBytes32_lt_iff (a b : Nat) (ha : a < 2 ^ 32) (hb : b < 2 ^ 32) :
    (lexLt (beBytes32 a) (beBytes32 b) = true ↔ a < b) := by
  have hpow : (2 : Nat) ^ 32 = 4294967296 := by norm_num
  rw [hpow] at ha hb
  simp only [beBytes32, lexLt_cons, lexLt_nil_nil, Bool.or_eq_true, Bool.and_eq_true,
    decide_eq_true_eq, beq_iff_eq, Bool.and_false, Bool.or_false]
  constructor
  · rintro (h | ⟨h3, h | ⟨h2, h | ⟨h1, h0⟩⟩⟩) <;> omega
  · intro h
    rcases Nat.lt_trichotomy (a / 16777216 % 256) (b / 16777216 % 256) with h3 | h3 | h3
    · exact Or.inl h3
    · refine Or.inr ⟨h3, ?_⟩
      rcases Nat.lt_trichotomy (a / 65536 % 256) (b / 65536 % 256) with h2 | h2 | h2
      · exact Or.inl h2
      · refine Or.inr ⟨h2, ?_⟩
        rcases Nat.lt_trichotomy (a / 256 % 256) (b / 256 % 256) with h1 | h1 | h1
        · exact Or.inl h1
        · exact Or.inr ⟨h1, by omega⟩
        · exfalso; omega
      · exfalso; omega
    · exfalso; omega

theorem hexDigitsBE_length (k : Nat) : ∀ n, (hexDigitsBE k n).length = k := by
  induction k with
  | zero => intro n; rfl
  | succ k ih => intro n; simp [hexDigitsBE, ih]

theorem hexDigitsBE_lt16 (k : Nat) : ∀ n, ∀ x ∈ hexDigitsBE k n, x < 16 := by
  induction k with
  | zero => intro n x hx; simp [hexDigitsBE] at hx
  | succ k ih =>
    intro n x hx
    simp only [hexDigitsBE, List.mem_append, List.mem_singleton] at hx
    rcases hx with hx | hx
    · exact ih _ x hx
    · subst hx; omega

theorem hexDigitsBE_inj (k : Nat) : ∀ a b, a < 16 ^ k → b < 16 ^ k →
    (hexDigitsBE k a = hexDigitsBE k b ↔ a = b) := by
  induction k with
  | zero =>
    intro a b ha hb
    rw [pow_zero] at ha hb
    constructor
    · intro _; omega
    · rintro rfl; rfl
  | succ k ih =>
    intro a b ha hb
    rw [pow_succ] at ha hb
    have ha' : a / 16 < 16 ^ k := (Nat.div_lt_iff_lt_mul (by norm_num)).2 ha
    have hb' : b / 16 < 16 ^ k := (Nat.div_lt_iff_lt_mul (by norm_num)).2 hb
    constructor
    · intro h
      simp only [hexDigitsBE] at h
      obtain ⟨h1, h2⟩ :=
        List.append_inj h (by rw [hexDigitsBE_length, hexDigitsBE_length])
      have e1 : a / 16 = b / 16 := (ih _ _ ha' hb').1 h1
      have e2 : a % 16 = b % 16 := by simpa using h2
      omega
    · rintro rfl; rfl

theorem hexDigitsBE_lt_iff (k : Nat) : ∀ a b, a < 16 ^ k → b < 16 ^ k →
    (lexLt (hexDigitsBE k a) (hexDigitsBE k b) = true ↔ a < b) := by
  induction k with
  | zero =>
    intro a b ha hb
    rw [pow_zero] at ha hb
    simp only [hexDigitsBE, lexLt_nil_nil, Bool.false_eq_true, false_iff]
    omega
  | succ k ih =>
    intro a b ha hb
    rw [pow_succ] at ha hb
    have ha' : a / 16 < 16 ^ k := (Nat.div_lt_iff_lt_mul (by norm_num)).2 ha
    have hb' : b / 16 < 16 ^ k := (Nat.div_lt_iff_lt_mul (by norm_num)).2 hb
    simp only [hexDigitsBE]
    rw [lexLt_append_iff _ _ _ _ (by rw [hexDigitsBE_length, hexDigitsBE_length])]
    simp only [Bool.or_eq_true, Bool.and_eq_true, beq_iff_eq, lexLt_cons, lexLt_nil_nil,
      Bool.and_false, Bool.or_false, decide_eq_true_eq]
    rw [ih _ _ ha' hb', hexDigitsBE_inj _ _ _ ha' hb']
    omega

theorem hexCharCode_lt_iff : ∀ a < 16, ∀ b < 16,
    ((hexCharCode a < hexCharCode b) ↔ a < b) := by decide

theorem hexCharCode_inj : ∀ a < 16, ∀ b < 16,
    ((hexCharCode a = hexCharCode b) ↔ a = b) := by decide

theorem lexLt_map_hexCharCode : ∀ (xs ys : List Nat), (∀ x ∈ xs, x < 16) →
    (∀ y ∈ ys, y < 16) →
    lexLt (xs.map hexCharCode) (ys.map hexCharCode) = lexLt xs ys
  | [], [], _, _ => rfl
  | [], _ :: _, _, _ => rfl
  | _ :: _, [], _, _ => rfl
  | x :: xs, y :: ys, hx, hy => by
    have hx0 : x < 16 := hx x (by simp)
    have hy0 : y < 16 := hy y (by simp)
    have ih := lexLt_map_hexCharCode xs ys (fun a ha => hx a (by simp [ha]))
      (fun a ha => hy a (by simp [ha]))
    simp only [List.map_cons, lexLt_cons, ih]
    have hd : (decide (hexCharCode x < hexCharCode y)) = (decide (x < y)) :=
      decide_eq_decide.mpr (hexCharCode_lt_iff x hx0 y hy0)
    have hb : ((hexCharCode x == hexCharCode y)) = ((x == y)) := by
      by_cases hxy : x = y
      · subst hxy; simp
      · have hne : hexCharCode x ≠ hexCharCode y :=
          fun hc => hxy ((hexCharCode_inj x hx0 y hy0).1 hc)
        simp [hxy, hne]
    rw [hd, hb]

theorem lexLt_insHyphens (xs ys : List Nat) (hx : xs.length = 32) (hy : ys.length = 32) :
    lexLt (insHyphens xs) (insHyphens ys) = lexLt xs ys := by
  have d8 : ∀ (l : List Nat), l.drop 8 = (l.drop 8).take 4 ++ l.drop 12 := by
    intro l
    conv_lhs => rw [← List.take_append_drop 4 (l.drop 8)]
    rw [List.drop_drop]
  have d12 : ∀ (l : List Nat), l.drop 12 = (l.drop 12).take 4 ++ l.drop 16 := by
    intro l
    conv_lhs => rw [← List.take_append_drop 4 (l.drop 12)]
    rw [List.drop_drop]
  have d16 : ∀ (l : List Nat), l.drop 16 = (l.drop 16).take 4 ++ l.drop 20 := by
    intro l
    conv_lhs => rw [← List.take_append_drop 4 (l.drop 16)]
    rw [List.drop_drop]
  have h1 : lexLt xs ys = (lexLt (xs.take 8) (ys.take 8) ||
      ((xs.take 8 == ys.take 8) && lexLt (xs.drop 8) (ys.drop 8))) := by
    conv_lhs => rw [← List.take_append_drop 8 xs, ← List.take_append_drop 8 ys]
    exact lexLt_append_iff _ _ _ _ (by simp [hx, hy])
  have h2 : lexLt (xs.drop 8) (ys.drop 8) = (lexLt ((xs.drop 8).take 4) ((ys.drop 8).take 4) ||
      (((xs.drop 8).take 4 == (ys.drop 8).take 4) && lexLt (xs.drop 12) (ys.drop 12))) := by
    conv_lhs => rw [d8 xs, d8 ys]
    exact lexLt_append_iff _ _ _ _ (by simp [hx, hy])
  have h3 : lexLt (xs.drop 12) (ys.drop 12) =
      (lexLt ((xs.drop 12).take 4) ((ys.drop 12).take 4) ||
      (((xs.drop 12).take 4 == (ys.drop 12).take 4) && lexLt (xs.drop 16) (ys.drop 16))) := by
    conv_lhs => rw [d12 xs, d12 ys]
    exact lexLt_append_iff _ _ _ _ (by simp [hx, hy])
  have h4 : lexLt (xs.drop 16) (ys.drop 16) =
      (lexLt ((xs.drop 16).take 4) ((ys.drop 16).take 4) ||
      (((xs.drop 16).take 4 == (ys.drop 16).take 4) && lexLt (xs.drop 20) (ys.drop 20))) := by
    conv_lhs => rw [d16 xs, d16 ys]
    exact lexLt_append_iff _ _ _ _ (by simp [hx, hy])
  rw [h1, h2, h3, h4]
  unfold insHyphens
  simp only [List.append_assoc, List.singleton_append]
  rw [lexLt_append_iff _ _ _ _ (by simp [hx, hy])]
  rw [lexLt_append_iff _ _ _ _ (by simp [hx, hy])]
  rw [lexLt_append_iff _ _ _ _ (by simp [hx, hy])]
  rw [lexLt_append_iff _ _ _ _ (by simp [hx, hy])]
  simp only [lexLt_cons_same, List.cons_beq_cons, beq_self_eq_true, Bool.true_and]

theorem uuid_lexLt_iff (u v : Nat) (hu : u < 2 ^ 128) (hv : v < 2 ^ 128) :
    (lexLt (uuidCharCodes u) (uuidCharCodes v) = true ↔ u < v) := by
  have hpow : (16 : Nat) ^ 32 = 2 ^ 128 := by norm_num
  unfold uuidCharCodes
  rw [lexLt_insHyphens _ _ (by simp [hexDigitsBE_length]) (by simp [hexDigitsBE_length]),
    lexLt_map_hexCharCode _ _ (hexDigitsBE_lt16 32 u) (hexDigitsBE_lt16 32 v)]
  exact hexDigitsBE_lt_iff 32 u v (by rw [hpow]; exact hu) (by rw [hpow]; exact hv)

/-!
## Claims about the snapshot rendering helpers
-/

/-- Claim C4: every compressed task-id set is rendered by snapshot_bitmap as
an opening bracket, each contained id in strictly ascending order each
followed by a comma, then a closing bracket (the empty set rendering as
"[]"), and every task record is rendered by snapshot_task as a braced
record whose first two fields are uid and status. -/
theorem bitmap_and_task_rendering (r : Finset Nat) (t : Task) :
    (∃ ids : List Nat, ids.Sorted (· < ·) ∧ ids.toFinset = r ∧
      snapshot_bitmap r =
        "[" ++ String.join (ids.map (fun x => toString x ++ ",")) ++ "]") ∧
    snapshot_bitmap (∅ : Finset Nat) = "[]" ∧
    (∃ mid : String,
      snapshot_task t = "\x7b" ++ "uid: " ++ toString t.uid ++ ", " ++
        "status: " ++ t.status.display ++ ", " ++ mid ++ "\x7d") := by
  have hempty : snapshot_bitmap (∅ : Finset Nat) = "[]" := by
    have hs : (∅ : Finset Nat).sort (· ≤ ·) = [] := Finset.sort_empty _
    simp only [snapshot_bitmap, hs, List.foldl_nil]
    rfl
  refine ⟨⟨r.sort (· ≤ ·), r.sort_sorted_lt, r.sort_toFinset _, ?_⟩, hempty, ?_⟩
  · have hdef : snapshot_bitmap r =
        ((r.sort (· ≤ ·)).foldl (fun acc x => acc ++ toString x ++ ",") ("".push '[')).push ']' :=
      rfl
    have hpush : ∀ s : String, s.push ']' = s ++ "]" := fun _ => rfl
    have hfold : (r.sort (· ≤ ·)).foldl (fun acc x => acc ++ toString x ++ ",") ("".push '[') =
        "[" ++ String.join ((r.sort (· ≤ ·)).map (fun x => toString x ++ ",")) := by
      have hfn : (fun (acc : String) (x : Nat) => acc ++ toString x ++ ",") =
          (fun (acc : String) (x : Nat) => acc ++ (toString x ++ ",")) := by
        funext acc x; rw [String.append_assoc]
      rw [hfn]
      exact strFoldl_eq_join (fun x => toString x ++ ",") _ ("".push '[')
    rw [hdef, hfold, hpush, String.append_assoc]
  · refine ⟨(match t.canceled_by with
      | some c => "canceled_by: " ++ toString c ++ ", "
      | none => "") ++
      ((match t.error with
      | some e => "error: " ++ strDebug e ++ ", "
      | none => "") ++
      ((match t.details with
      | some d => "details: " ++ snapshot_details d ++ ", "
      | none => "") ++
      ("kind: " ++ t.kind.debugFmt))), ?_⟩
    have hpush : ∀ s : String, s.push '\x7d' = s ++ "\x7d" := fun _ => rfl
    have hopen : ("".push '\x7b') = "\x7b" := rfl
    simp only [snapshot_task, hpush, hopen, String.append_assoc]

/-- Claim C1: the exporter verifies structural self-consistency before
reading or emitting any table — a failed check is a fatal assertion producing
no snapshot output, and the failure branch is unreachable whenever the store
satisfies the invariants. -/
theorem snapshot_consistency_gate (s : IndexScheduler) :
    (assert_internally_consistent s = false → snapshot_index_scheduler s = none) ∧
    (ConsistencyInv s → ∃ out, snapshot_index_scheduler s = some out) := by
  constructor
  · intro h
    unfold snapshot_index_scheduler
    rw [h]
    rfl
  · intro h
    have hb : assert_internally_consistent s = true := decide_eq_true h
    unfold snapshot_index_scheduler
    rw [hb]
    exact ⟨_, rfl⟩

/-- Witness for C1: the concrete consistent store snapshots successfully. -/
theorem snapshot_consistency_gate_witness :
    ∃ out, snapshot_index_scheduler sampleScheduler = some out :=
  (snapshot_consistency_gate sampleScheduler).2 (by decide)

/-- Claim C2: the snapshot export is deterministic — it is a function of the
store content the exporter reads, so equal content (two calls with no
mutation in between, whatever the ignored runtime fields do) yields
byte-identical output. -/
theorem snapshot_deterministic (s₁ s₂ : IndexScheduler)
    (h₁ : s₁.autobatching_enabled = s₂.autobatching_enabled)
    (h₂ : s₁.processing_tasks = s₂.processing_tasks)
    (h₃ : s₁.file_store = s₂.file_store)
    (h₄ : s₁.all_tasks = s₂.all_tasks)
    (h₅ : s₁.status = s₂.status)
    (h₆ : s₁.kind = s₂.kind)
    (h₇ : s₁.index_tasks = s₂.index_tasks)
    (h₈ : s₁.canceled_by = s₂.canceled_by)
    (h₉ : s₁.enqueued_at = s₂.enqueued_at)
    (h₁₀ : s₁.started_at = s₂.started_at)
    (h₁₁ : s₁.finished_at = s₂.finished_at)
    (h₁₂ : s₁.index_mapper = s₂.index_mapper) :
    snapshot_index_scheduler s₁ = snapshot_index_scheduler s₂ := by
  obtain ⟨a₁, a₂, a₃, a₄, a₅, a₆, a₇, a₈, a₉, a₁₀, a₁₁, a₁₂, a₁₃, a₁₄, a₁₅,
    a₁₆, a₁₇, a₁₈, a₁₉, a₂₀, a₂₁, a₂₂, a₂₃, a₂₄, a₂₅, a₂₆⟩ := s₁
  obtain ⟨b₁, b₂, b₃, b₄, b₅, b₆, b₇, b₈, b₉, b₁₀, b₁₁, b₁₂, b₁₃, b₁₄, b₁₅,
    b₁₆, b₁₇, b₁₈, b₁₉, b₂₀, b₂₁, b₂₂, b₂₃, b₂₄, b₂₅, b₂₆⟩ := s₂
  dsimp only at h₁ h₂ h₃ h₄ h₅ h₆ h₇ h₈ h₉ h₁₀ h₁₁ h₁₂
  subst h₁ h₂ h₃ h₄ h₅ h₆ h₇ h₈ h₉ h₁₀ h₁₁ h₁₂
  rfl

/-- Witness for C2: the sample store and its copy with every ignored runtime
field changed produce the same snapshot. -/
theorem snapshot_deterministic_witness :
    snapshot_index_scheduler sampleScheduler = snapshot_index_scheduler sampleSchedulerAlt :=
  snapshot_deterministic sampleScheduler sampleSchedulerAlt
    rfl rfl rfl rfl rfl rfl rfl rfl rfl rfl rfl rfl

/-- Claim C5: the All Tasks section lists every record of the table, exactly
one line per record in iteration order, and the big-endian u32 key iteration
order of the all_tasks table is exactly ascending numeric uid order. -/
theorem all_tasks_uid_order (db : List (Nat × Task))
    (hbound : ∀ p ∈ db, p.1 < 2 ^ 32)
    (hord : db.Pairwise (fun p q => lexLt (beBytes32 p.1) (beBytes32 q.1) = true)) :
    db.Pairwise (fun p q => p.1 < q.1) ∧
    snapshot_all_tasks db =
      String.join (db.map (fun p => toString p.1 ++ " " ++ snapshot_task p.2 ++ "\n")) := by
  constructor
  · exact hord.imp_of_mem (fun ha hb h =>
      (beBytes32_lt_iff _ _ (hbound _ ha) (hbound _ hb)).1 h)
  · show db.foldl (fun snap p => snap ++ toString p.1 ++ " " ++ snapshot_task p.2 ++ "\n") ""
      = _
    exact strFoldl_map_eq_join _ db _ (fun acc p => by simp [String.append_assoc])

/-- Witness for C5: a two-record table in byte order is in uid order and
renders one line per record. -/
theorem all_tasks_uid_order_witness :
    [((1 : Nat), sampleTask), (256, sampleTask)].Pairwise (fun p q => p.1 < q.1) ∧
    snapshot_all_tasks [((1 : Nat), sampleTask), (256, sampleTask)] =
      String.join ([((1 : Nat), sampleTask), (256, sampleTask)].map
        (fun p => toString p.1 ++ " " ++ snapshot_task p.2 ++ "\n")) :=
  all_tasks_uid_order [(1, sampleTask), (256, sampleTask)] (by decide) (by decide)

/-- Claim C6: the File Store section lists the reference identifiers one per
line, and the BTreeSet (numeric uuid) order in which they are emitted agrees
with the lexicographic order of their printed hyphenated-hex forms. -/
theorem file_store_lex_sorted (fs : Finset Nat) (hb : ∀ u ∈ fs, u < 2 ^ 128) :
    (∀ u v, u < 2 ^ 128 → v < 2 ^ 128 →
      (u < v ↔ lexLt (uuidCharCodes u) (uuidCharCodes v) = true)) ∧
    ((fs.sort (· ≤ ·)).map uuidCharCodes).Pairwise (fun a b => lexLt a b = true) ∧
    snapshot_file_store fs =
      String.join ((fs.sort (· ≤ ·)).map (fun u => uuidDisplay u ++ "\n")) := by
  refine ⟨fun u v hu hv => (uuid_lexLt_iff u v hu hv).symm, ?_, ?_⟩
  · apply List.pairwise_map.mpr
    have hp : (fs.sort (· ≤ ·)).Pairwise (· < ·) := fs.sort_sorted_lt
    exact hp.imp_of_mem (fun ha hb2 hlt =>
      (uuid_lexLt_iff _ _ (hb _ ((Finset.mem_sort _).1 ha))
        (hb _ ((Finset.mem_sort _).1 hb2))).2 hlt)
  · show (fs.sort (· ≤ ·)).foldl (fun snap uuid => snap ++ uuidDisplay uuid ++ "\n") "" = _
    exact strFoldl_map_eq_join _ _ _ (fun acc u => by simp [String.append_assoc])

/-- Witness for C6: a two-element file store is printed in agreeing order. -/
theorem file_store_lex_sorted_witness :
    ((({0, 1} : Finset Nat).sort (· ≤ ·)).map uuidCharCodes).Pairwise
      (fun a b => lexLt a b = true) :=
  (file_store_lex_sorted {0, 1} (by decide)).2.1

/-!
## Claims about the search helpers
-/

/-- Claim C8: SearchKind::embedder fails with an invalid-embedder user error
exactly when the requested (or default) embedder name is not configured,
fails with an invalid-vector-dimensions user error when a supplied vector
length differs from the chosen embedder's dimensions, and otherwise returns
the resolved name and embedder. -/
theorem SearchKind_embedder_spec (embedders : EmbeddingConfigs)
    (embedder_name : Option String) (vector_len : Option Nat) :
    (embedders.get (embedder_name.getD embedders.default_name) = none →
      SearchKind.embedder embedders embedder_name vector_len =
        .error (.invalidEmbedder (embedder_name.getD embedders.default_name))) ∧
    (∀ emb, embedders.get (embedder_name.getD embedders.default_name) = some emb →
      (∀ vl, vector_len = some vl → vl ≠ emb.dimensions →
        SearchKind.embedder embedders embedder_name vector_len =
          .error (.invalidVectorDimensions emb.dimensions vl)) ∧
      ((vector_len = none ∨ vector_len = some emb.dimensions) →
        SearchKind.embedder embedders embedder_name vector_len =
          .ok (embedder_name.getD embedders.default_name, emb))) := by
  constructor
  · intro h
    simp [SearchKind.embedder, h]
  · intro emb h
    constructor
    · intro vl hvl hne
      subst hvl
      simp [SearchKind.embedder, h, hne]
    · rintro (hvl | hvl) <;> subst hvl <;> simp [SearchKind.embedder, h]

/-- Witness for C8 at a concrete configuration: a 3-dimensional default
embedder rejected for a 2-long vector. -/
theorem SearchKind_embedder_spec_witness :
    SearchKind.embedder ⟨[("default", ⟨3⟩)], "default"⟩ none (some 2) =
      .error (.invalidVectorDimensions 3 2) :=
  ((SearchKind_embedder_spec ⟨[("default", ⟨3⟩)], "default"⟩ none (some 2)).2
    ⟨3⟩ rfl).1 2 rfl (by decide)

/-- Claim C9: prepare_search clamps the effective window to the pagination
hard limit — the effective offset is the requested offset capped at
max_total_hits, the effective limit is the requested limit capped at the room
left, their sum never exceeds max_total_hits — and under finite pagination a
page-0 request yields the empty window. -/
theorem prepare_search_window_spec (offset limit : Nat) (page hits_per_page : Option Nat)
    (max_total_hits : Nat) :
    (prepare_search_window offset limit page hits_per_page max_total_hits).1 =
      min (requested_window offset limit page hits_per_page).1 max_total_hits ∧
    (prepare_search_window offset limit page hits_per_page max_total_hits).2 =
      min (requested_window offset limit page hits_per_page).2
        (max_total_hits -
          (prepare_search_window offset limit page hits_per_page max_total_hits).1) ∧
    (prepare_search_window offset limit page hits_per_page max_total_hits).1 +
      (prepare_search_window offset limit page hits_per_page max_total_hits).2 ≤
        max_total_hits ∧
    (page = some 0 →
      prepare_search_window offset limit page hits_per_page max_total_hits = (0, 0)) := by
  refine ⟨rfl, rfl, ?_, ?_⟩
  · show min _ max_total_hits + min _ (max_total_hits - min _ max_total_hits) ≤ _
    omega
  · intro hp
    subst hp
    simp [prepare_search_window, requested_window, is_finite_pagination]

/-- Witness for C9: a page-0 request over a 1000-hit limit returns the empty
window. -/
theorem prepare_search_window_spec_witness :
    prepare_search_window 5 7 (some 0) none 1000 = (0, 0) :=
  (prepare_search_window_spec 5 7 (some 0) none 1000).2.2.2 rfl

/-- Claim C10: add_search_rules leaves the query filter unchanged when the
rules carry none, returns exactly the rules filter when the query has none,
and with both present concatenates the two as arrays, each side first wrapped
into a singleton array unless it already is one. -/
theorem add_search_rules_spec (filter : Option JsonValue) (rules : IndexSearchRules) :
    (rules.filter = none → add_search_rules filter rules = filter) ∧
    (filter = none → add_search_rules filter rules = rules.filter) ∧
    (∀ f rf, filter = some f → rules.filter = some rf →
      add_search_rules filter rules = some (.arr (wrapArray f ++ wrapArray rf))) := by
  obtain ⟨rf⟩ := rules
  refine ⟨?_, ?_, ?_⟩
  · rintro rfl
    cases filter <;> rfl
  · rintro rfl
    cases rf <;> rfl
  · rintro f rf' rfl rfl
    show add_search_rules (some f) ⟨some rf'⟩ = _
    cases f <;> cases rf' <;> rfl

/-- Witness for C10: a plain query filter merged with an array rules filter. -/
theorem add_search_rules_spec_witness :
    add_search_rules (some (.str "genre = romance")) ⟨some (.arr [.str "user = 1"])⟩ =
      some (.arr (wrapArray (.str "genre = romance") ++ wrapArray (.arr [.str "user = 1"]))) :=
  (add_search_rules_spec (some (.str "genre = romance"))
    ⟨some (.arr [.str "user = 1"])⟩).2.2 _ _ rfl rfl

/-!
## Claims about the task store invariants
-/

theorem statusAgrees_init : StatusAgrees SchedState.init := by
  intro u st
  simp [SchedState.init, StatusAgrees]

theorem freshAbove_init : FreshAbove SchedState.init := fun _ _ => rfl

theorem statusAgrees_update (s s' : SchedState) (uid : Nat) (t t' : Task)
    (htask : s.tasks uid = some t)
    (htasks : ∀ u, s'.tasks u = if u = uid then some t' else s.tasks u)
    (hidx : ∀ st, s'.statusIdx st =
      if st = t'.status then insert uid (s.statusIdx st)
      else if st = t.status then (s.statusIdx st).erase uid
      else s.statusIdx st)
    (h : StatusAgrees s) : StatusAgrees s' := by
  intro u st
  have htu := htasks u
  have hix := hidx st
  by_cases hu : u = uid
  · rw [if_pos hu] at htu
    rw [← hu] at htask hix
    by_cases h1 : st = t'.status
    · rw [if_pos h1] at hix
      rw [hix, htu]
      constructor
      · intro _
        exact ⟨t', rfl, h1.symm⟩
      · intro _
        exact Finset.mem_insert_self _ _
    · rw [if_neg h1] at hix
      by_cases h2 : st = t.status
      · rw [if_pos h2] at hix
        rw [hix, htu]
        constructor
        · intro hmem
          exact absurd rfl (Finset.mem_erase.1 hmem).1
        · rintro ⟨t2, ht2, hst2⟩
          injection ht2 with ht3
          subst ht3
          exact absurd hst2.symm h1
      · rw [if_neg h2] at hix
        rw [hix, htu]
        constructor
        · intro hmem
          obtain ⟨t2, ht2, hst2⟩ := (h u st).1 hmem
          rw [htask] at ht2
          injection ht2 with ht3
          subst ht3
          exact absurd hst2.symm h2
        · rintro ⟨t2, ht2, hst2⟩
          injection ht2 with ht3
          subst ht3
          exact absurd hst2.symm h1
  · rw [if_neg hu] at htu
    have base := h u st
    by_cases h1 : st = t'.status
    · rw [if_pos h1] at hix
      rw [hix, htu, Finset.mem_insert, or_iff_right hu]
      exact base
    · rw [if_neg h1] at hix
      by_cases h2 : st = t.status
      · rw [if_pos h2] at hix
        rw [hix, htu, Finset.mem_erase, and_iff_right hu]
        exact base
      · rw [if_neg h2] at hix
        rw [hix, htu]
        exact base

theorem freshAbove_update (s s' : SchedState) (uid : Nat) (t t' : Task)
    (htask : s.tasks uid = some t) (hnext : s'.nextUid = s.nextUid)
    (htasks : ∀ u, s'.tasks u = if u = uid then some t' else s.tasks u)
    (hf : FreshAbove s) : FreshAbove s' := by
  intro u hu
  rw [hnext] at hu
  rw [htasks]
  by_cases h : u = uid
  · subst h
    rw [hf _ hu] at htask
    cases htask
  · rw [if_neg h]
    exact hf _ hu

theorem enqueue_preserves (s : SchedState) (k : Kind) (n : Option String)
    (d : Option Details) (ts : Int) (h : StatusAgrees s) (hf : FreshAbove s) :
    StatusAgrees (s.enqueue k n d ts) ∧ FreshAbove (s.enqueue k n d ts) := by
  have htasks : ∀ u, (s.enqueue k n d ts).tasks u =
      if u = s.nextUid then some (enqueuedTask k n d ts s.nextUid) else s.tasks u :=
    fun _ => rfl
  have hidx : ∀ st, (s.enqueue k n d ts).statusIdx st =
      if st = Status.enqueued then insert s.nextUid (s.statusIdx st) else s.statusIdx st :=
    fun _ => rfl
  have hnext : (s.enqueue k n d ts).nextUid = s.nextUid + 1 := rfl
  constructor
  · intro u st
    have htu := htasks u
    have hix := hidx st
    by_cases hu : u = s.nextUid
    · rw [if_pos hu] at htu
      have hnone : s.tasks u = none := by rw [hu]; exact hf _ le_rfl
      by_cases hst : st = Status.enqueued
      · rw [if_pos hst] at hix
        rw [hix, htu, hu]
        constructor
        · intro _
          exact ⟨_, rfl, hst.symm⟩
        · intro _
          exact Finset.mem_insert_self _ _
      · rw [if_neg hst] at hix
        rw [hix, htu]
        constructor
        · intro hmem
          obtain ⟨t2, ht2, _⟩ := (h u st).1 hmem
          rw [hnone] at ht2
          cases ht2
        · rintro ⟨t2, ht2, hst2⟩
          injection ht2 with ht3
          subst ht3
          exact absurd hst2.symm hst
    · rw [if_neg hu] at htu
      have base := h u st
      by_cases hst : st = Status.enqueued
      · rw [if_pos hst] at hix
        rw [hix, htu, Finset.mem_insert, or_iff_right hu]
        exact base
      · rw [if_neg hst] at hix
        rw [hix, htu]
        exact base
  · intro u hu
    rw [hnext] at hu
    rw [htasks u]
    have hne : ¬u = s.nextUid := by omega
    rw [if_neg hne]
    exact hf _ (by omega)

theorem transition_preserves (s : SchedState) (uid : Nat) (st0 : Status) (ts : Int)
    (d : Option Details) (e : Option String) (h : StatusAgrees s) (hf : FreshAbove s) :
    StatusAgrees (s.transition uid st0 ts d e) ∧ FreshAbove (s.transition uid st0 ts d e) := by
  unfold SchedState.transition
  cases htask : s.tasks uid with
  | none => exact ⟨h, hf⟩
  | some t =>
    exact ⟨statusAgrees_update s _ uid t _ htask (fun _ => rfl) (fun _ => rfl) h,
      freshAbove_update s _ uid t _ htask rfl (fun _ => rfl) hf⟩

theorem cancelOne_preserves (s : SchedState) (cuid : Nat) (ts : Int) (uid : Nat)
    (h : StatusAgrees s) (hf : FreshAbove s) :
    StatusAgrees (s.cancelOne cuid ts uid) ∧ FreshAbove (s.cancelOne cuid ts uid) := by
  unfold SchedState.cancelOne
  cases htask : s.tasks uid with
  | none => exact ⟨h, hf⟩
  | some t =>
    by_cases hterm : t.status.isTerminal
    · simp only [hterm, if_true]
      exact ⟨h, hf⟩
    · simp only [hterm, if_false, Bool.false_eq_true]
      exact ⟨statusAgrees_update s _ uid t _ htask (fun _ => rfl) (fun _ => rfl) h,
        freshAbove_update s _ uid t _ htask rfl (fun _ => rfl) hf⟩

theorem cancel_preserves (uids : List Nat) :
    ∀ (s : SchedState) (cuid : Nat) (ts : Int), StatusAgrees s → FreshAbove s →
    StatusAgrees (s.cancel uids cuid ts) ∧ FreshAbove (s.cancel uids cuid ts) := by
  induction uids with
  | nil => exact fun s _ _ h hf => ⟨h, hf⟩
  | cons a l ih =>
    intro s cuid ts h hf
    obtain ⟨h', hf'⟩ := cancelOne_preserves s cuid ts a h hf
    exact ih (s.cancelOne cuid ts a) cuid ts h' hf'

theorem step_preserves (s : SchedState) (op : StoreOp)
    (h : StatusAgrees s) (hf : FreshAbove s) :
    StatusAgrees (s.step op) ∧ FreshAbove (s.step op) := by
  cases op with
  | enqueue k n d ts => exact enqueue_preserves s k n d ts h hf
  | transition uid st ts d e => exact transition_preserves s uid st ts d e h hf
  | cancel uids cuid ts => exact cancel_preserves uids s cuid ts h hf

theorem applyOps_statusAgrees (ops : List StoreOp) :
    StatusAgrees (SchedState.applyOps ops) := by
  have key : ∀ (l : List StoreOp) (s : SchedState), StatusAgrees s → FreshAbove s →
      StatusAgrees (l.foldl SchedState.step s) ∧ FreshAbove (l.foldl SchedState.step s) := by
    intro l
    induction l with
    | nil => exact fun s h hf => ⟨h, hf⟩
    | cons op l ih =>
      intro s h hf
      obtain ⟨h', hf'⟩ := step_preserves s op h hf
      exact ih _ h' hf'
  exact (key ops SchedState.init statusAgrees_init freshAbove_init).1

/-- Claim C3: at every transaction boundary (any sequence of store
operations applied from the empty store), every uid of the record table is in
the status bucket named by its record's status field and in no other bucket,
and every uid found in a status bucket belongs to a record of that status —
so the union of the buckets is exactly the record table's uid set. -/
theorem status_buckets_partition (ops : List StoreOp) :
    (∀ u t, (SchedState.applyOps ops).tasks u = some t →
      u ∈ (SchedState.applyOps ops).statusIdx t.status ∧
      ∀ st, u ∈ (SchedState.applyOps ops).statusIdx st → st = t.status) ∧
    (∀ st u, u ∈ (SchedState.applyOps ops).statusIdx st →
      ∃ t, (SchedState.applyOps ops).tasks u = some t ∧ t.status = st) := by
  have key := applyOps_statusAgrees ops
  constructor
  · intro u t ht
    refine ⟨(key u t.status).2 ⟨t, ht, rfl⟩, ?_⟩
    intro st hst
    obtain ⟨t2, ht2, hst2⟩ := (key u st).1 hst
    rw [ht] at ht2
    injection ht2 with ht3
    subst ht3
    exact hst2.symm
  · intro st u hm
    exact (key u st).1 hm

/-- Witness for C3: after a single enqueue from the empty store, uid 0 sits
in the Enqueued bucket. -/
theorem status_buckets_partition_witness :
    (0 : Nat) ∈ (SchedState.applyOps
      [.enqueue .documentAdditionOrUpdate (some "doggos") none 0]).statusIdx
      Status.enqueued :=
  ((status_buckets_partition
      [.enqueue .documentAdditionOrUpdate (some "doggos") none 0]).1 0
    (enqueuedTask .documentAdditionOrUpdate (some "doggos") none 0 0) rfl).1

theorem cancelOne_of_settled (s : SchedState) (cuid : Nat) (ts : Int) (u : Nat)
    (hs : s.settled u) : s.cancelOne cuid ts u = s := by
  unfold SchedState.cancelOne
  cases ht : s.tasks u with
  | none => rfl
  | some t => simp [hs t ht]

theorem cancelOne_settled_preserved (s : SchedState) (cuid : Nat) (ts : Int) (v u : Nat)
    (hs : s.settled u) : (s.cancelOne cuid ts v).settled u := by
  unfold SchedState.cancelOne
  cases ht : s.tasks v with
  | none => exact hs
  | some t =>
    by_cases hterm : t.status.isTerminal
    · simp only [hterm, if_true]
      exact hs
    · simp only [hterm, if_false, Bool.false_eq_true]
      intro t2 ht2
      simp only at ht2
      by_cases huv : u = v
      · subst huv
        rw [if_pos rfl] at ht2
        injection ht2 with ht3
        subst ht3
        rfl
      · rw [if_neg huv] at ht2
        exact hs _ ht2

theorem cancelOne_settled_self (s : SchedState) (cuid : Nat) (ts : Int) (v : Nat) :
    (s.cancelOne cuid ts v).settled v := by
  unfold SchedState.cancelOne
  cases ht : s.tasks v with
  | none =>
    intro t2 ht2
    rw [ht2] at ht
    cases ht
  | some t =>
    by_cases hterm : t.status.isTerminal
    · intro t2 ht2
      simp only [hterm, if_true] at ht2
      rw [ht2] at ht
      injection ht with ht3
      subst ht3
      exact hterm
    · simp only [hterm, if_false, Bool.false_eq_true]
      intro t2 ht2
      simp only [if_pos rfl] at ht2
      injection ht2 with ht3
      subst ht3
      rfl

theorem cancel_settled_preserved (l : List Nat) :
    ∀ (s : SchedState) (cuid : Nat) (ts : Int) (u : Nat), s.settled u →
    (s.cancel l cuid ts).settled u := by
  induction l with
  | nil => exact fun _ _ _ _ hs => hs
  | cons a l ih =>
    intro s cuid ts u hs
    exact ih _ cuid ts u (cancelOne_settled_preserved s cuid ts a u hs)

theorem cancel_settles (l : List Nat) :
    ∀ (s : SchedState) (cuid : Nat) (ts : Int), ∀ u ∈ l, (s.cancel l cuid ts).settled u := by
  induction l with
  | nil => intro s cuid ts u hu; cases hu
  | cons a l ih =>
    intro s cuid ts u hu
    rcases List.mem_cons.1 hu with hu | hu
    · subst hu
      exact cancel_settled_preserved l _ cuid ts u (cancelOne_settled_self s cuid ts u)
    · exact ih _ cuid ts u hu

theorem cancel_of_all_settled (l : List Nat) :
    ∀ (s : SchedState) (cuid : Nat) (ts : Int), (∀ u ∈ l, s.settled u) →
    s.cancel l cuid ts = s := by
  induction l with
  | nil => exact fun _ _ _ _ => rfl
  | cons a l ih =>
    intro s cuid ts h
    show (s.cancelOne cuid ts a).cancel l cuid ts = s
    rw [cancelOne_of_settled s cuid ts a (h a (List.mem_cons_self a l))]
    exact ih s cuid ts (fun u hu => h u (List.mem_cons_of_mem a hu))

/-- Claim C7: cancellation is best-effort and idempotent — cancelling a task
already in a terminal status leaves the task record and every secondary index
unchanged (not an error), and, on every store whatsoever, running the same
cancellation twice yields exactly the state of running it once. -/
theorem cancel_idempotent_bestEffort (s : SchedState) (uids : List Nat)
    (uid cuid : Nat) (ts : Int) :
    (∀ t, s.tasks uid = some t → t.status.isTerminal = true →
      s.cancel [uid] cuid ts = s) ∧
    (s.cancel uids cuid ts).cancel uids cuid ts = s.cancel uids cuid ts := by
  constructor
  · intro t hget hterm
    show s.cancelOne cuid ts uid = s
    unfold SchedState.cancelOne
    rw [hget]
    simp [hterm]
  · exact cancel_of_all_settled uids _ cuid ts (cancel_settles uids s cuid ts)

/-- Witness for C7: cancelling the succeeded task of the sample store leaves
it untouched. -/
theorem cancel_idempotent_bestEffort_witness :
    sampleStore.cancel [0] 5 9 = sampleStore :=
  (cancel_idempotent_bestEffort sampleStore [] 0 5 9).1 sampleTask rfl rfl

end Meili
